import Mathlib

/-!
Verification of the request admission pipeline of the NestJs workshop
repository: the distributed fixed-window rate limiter, the session and
token based access guards, credential verification, session expiry, and
the global exception filter.

Components whose code lives in external libraries (the throttler storage,
argon2, the jwt module, secure-session, class-validator) are modelled from
the specification; everything else is translated from the repository
sources (app.module.ts, main.ts, the guard, service, controller, DTO and
filter files).
-/

namespace RateLimiter

/-- Modelled from the spec: the fixed-window counter entry kept in the
shared Redis store by the throttler storage service (the storage library
is not part of the repository sources; the configuration with ttl 60000
and limit 10 is in Workshop5 app.module.ts). -/
structure Entry where
  windowStart : Nat
  count : Nat
deriving Repr, DecidableEq

/-- Modelled from the spec: the single atomic increment-and-expire
operation against the shared store. On the first request in a window the
counter is created with expiry ttl; afterwards the stored counter is
atomically incremented; a counter whose window has elapsed is treated as
absent and recreated. -/
def increment (store : Option Entry) (now ttl : Nat) : Entry :=
  match store with
  | none => ⟨now, 1⟩
  | some e => if e.windowStart + ttl ≤ now then ⟨now, 1⟩ else ⟨e.windowStart, e.count + 1⟩

/-- Modelled from the spec: one admission decision. The post-increment
value is compared against the limit; the increment is never rolled back. -/
def allow (store : Option Entry) (now limit ttl : Nat) : Entry × Bool :=
  let e := increment store now ttl
  (e, decide (e.count ≤ limit))

/-- A schedule of atomic store operations: concurrent requests hit the
shared store one atomic operation at a time, in the order given by the
list of their arrival times (the list order is the interleaving). The
result is the final store state and the list of per-request decisions in
schedule order. -/
def processAll (store : Option Entry) (limit ttl : Nat) : List Nat → Option Entry × List Bool
  | [] => (store, [])
  | t :: ts =>
    let r := allow store t limit ttl
    let q := processAll (some r.1) limit ttl ts
    (q.1, r.2 :: q.2)

/-- HTTP status attached to a decision: a rejected request is answered
with 429 Too Many Requests (ThrottlerException). -/
def statusOf (admitted : Bool) : Nat := if admitted then 201 else 429

end RateLimiter

namespace Jwt

/-- The data carried by a signed token: subject id, extra claims, issue
time and time-to-live (the jwt module serializes these into the payload
segment; iat and exp are in the payload, exp = iat + ttl). -/
structure Payload where
  subjectId : Nat
  claims : List (String × String)
  issuedAt : Nat
  ttl : Nat
deriving Repr, DecidableEq

/-- A signature value: modelled as an ideal MAC, determined exactly by
the signing secret and the signed payload, so that recompute-and-compare
succeeds precisely when both match. -/
structure Sig where
  secret : Nat
  signed : Payload
deriving Repr, DecidableEq

/-- A token string as received from the client: either it parses into a
payload and signature segment, or it is garbage that cannot be parsed. -/
inductive TokenStr where
  | wellFormed : Payload → Sig → TokenStr
  | garbage : String → TokenStr
deriving Repr, DecidableEq

inductive TokenError where
  | malformed : TokenError
  | invalidSignature : TokenError
  | expired : TokenError
deriving Repr, DecidableEq

/-- Modelled from the spec: computing the signature over the serialized
payload with the server-held secret (the jwt library is not part of the
repository sources; the configuration, secret and expiresIn 60m with
expiration checking enabled, is in Workshop3 auth.module.ts and
jwt.strategy.ts). -/
def sign (secret : Nat) (p : Payload) : Sig := ⟨secret, p⟩

/-- Modelled from the spec: issue serializes the payload with the issue
time and signs it with the server secret. -/
def issue (secret subjectId : Nat) (claims : List (String × String)) (ttl now : Nat) :
    TokenStr :=
  TokenStr.wellFormed ⟨subjectId, claims, now, ttl⟩ (sign secret ⟨subjectId, claims, now, ttl⟩)

/-- Modelled from the spec: verify splits payload and signature,
recomputes the signature and compares, then checks expiry. Malformed if
the token cannot be parsed, InvalidSignature on mismatch, Expired if
now is past issuedAt + ttl; on success the embedded payload (subject id
and claims) is returned. -/
def verify (secret now : Nat) : TokenStr → Except TokenError Payload
  | TokenStr.garbage _ => Except.error TokenError.malformed
  | TokenStr.wellFormed p s =>
    if s = sign secret p then
      if p.issuedAt + p.ttl < now then Except.error TokenError.expired
      else Except.ok p
    else Except.error TokenError.invalidSignature

/-- Does a verification result represent success? -/
def verifyOk (secret now : Nat) (t : TokenStr) : Bool :=
  match verify secret now t with
  | Except.ok _ => true
  | Except.error _ => false

end Jwt

namespace Guards

/-- Outcome of a guard run: either the guard lets the request through,
or it redirects the client away (the reject path of the workshop
guards — the request does not reach the handler). -/
inductive GuardOutcome where
  | granted : GuardOutcome
  | redirectTo : String → GuardOutcome
deriving Repr, DecidableEq

/-- JavaScript truthiness of the value read by session.get, where the
login controller stores the user id with session.set of String(user.id):
absent (undefined) and the empty string are falsy, any other string is
truthy. -/
def truthy : Option String → Bool
  | none => false
  | some s => !(s == "")

/-- The Authorized guard (authorization.guard.ts): reads userId from the
session; if it is falsy the client is redirected to /login, otherwise
canActivate returns true. -/
def authorizedCanActivate (sessionUserId : Option String) : GuardOutcome :=
  if !(truthy sessionUserId) then GuardOutcome.redirectTo "/login"
  else GuardOutcome.granted

/-- The Guest guard (authorization.guard.ts): reads userId from the
session; if it is falsy canActivate returns true, otherwise the client
is redirected to /todo. -/
def guestCanActivate (sessionUserId : Option String) : GuardOutcome :=
  if !(truthy sessionUserId) then GuardOutcome.granted
  else GuardOutcome.redirectTo "/todo"

/-- Result of the token-mode GuestGuard: whether canActivate returns
true, where it redirected, and whether it cleared the token cookie. -/
structure TokenGuardResult where
  allow : Bool
  redirectedTo : Option String
  clearedCookie : Bool
deriving Repr, DecidableEq

/-- The GuestGuard (guest.guard.ts): no cookie token means admit; a
token that verifies means redirect to /todo and return false; a token
whose verification throws means clear the token cookie and admit. -/
def guestGuardCanActivate (secret now : Nat) (cookieToken : Option Jwt.TokenStr) :
    TokenGuardResult :=
  match cookieToken with
  | none => ⟨true, none, false⟩
  | some t =>
    match Jwt.verify secret now t with
    | Except.ok _ => ⟨false, some "/todo", false⟩
    | Except.error _ => ⟨true, none, true⟩

/-- The jwt strategy guard (jwt.strategy.ts behind AuthGuard): extracts
the token from the token cookie, verifies it with the configured secret
and with expiration checking enabled; access is granted only when a
token is present and verifies. -/
def jwtAuthGuardAdmits (secret now : Nat) (cookieToken : Option Jwt.TokenStr) : Bool :=
  match cookieToken with
  | none => false
  | some t => Jwt.verifyOk secret now t

/-- The two identity-resolution route modes used by the workshops:
cookie-session mode (Workshop5) and bearer/cookie-token mode
(Workshop3). -/
inductive RouteMode where
  | session : RouteMode
  | token : RouteMode
deriving Repr, DecidableEq

/-- The identity material a request can carry. -/
structure Request where
  sessionUserId : Option String
  cookieToken : Option Jwt.TokenStr

/-- An identity is resolved when the session carries a truthy userId
(session mode) or the carried token verifies (token mode). -/
def identityResolved (secret now : Nat) (mode : RouteMode) (r : Request) : Bool :=
  match mode with
  | RouteMode.session => truthy r.sessionUserId
  | RouteMode.token =>
    match r.cookieToken with
    | none => false
    | some t => Jwt.verifyOk secret now t

/-- The authenticated-required guard of the given route mode, as a
boolean admission decision. -/
def authRequiredAdmits (secret now : Nat) (mode : RouteMode) (r : Request) : Bool :=
  match mode with
  | RouteMode.session => authorizedCanActivate r.sessionUserId == GuardOutcome.granted
  | RouteMode.token => jwtAuthGuardAdmits secret now r.cookieToken

/-- The guest-required guard of the given route mode, as a boolean
admission decision. -/
def guestRequiredAdmits (secret now : Nat) (mode : RouteMode) (r : Request) : Bool :=
  match mode with
  | RouteMode.session => guestCanActivate r.sessionUserId == GuardOutcome.granted
  | RouteMode.token => (guestGuardCanActivate secret now r.cookieToken).allow

end Guards

namespace Auth

/-- A stored password digest. Modelled from the spec: argon2 is an
external library; the digest of an ideal salted collision-free one-way
hash is determined by the salt and the exact input, and verification
recomputes and compares, so it matches exactly the password that was
hashed (the spec allows failure of this only with negligible
probability, which the ideal model renders as impossibility). -/
structure Digest where
  salt : Nat
  input : String
deriving Repr, DecidableEq

/-- Modelled from the spec: argon2.hash with a fresh salt. -/
def argon2hash (salt : Nat) (password : String) : Digest := ⟨salt, password⟩

/-- Modelled from the spec: argon2.verify recomputes the digest of the
candidate password with the stored salt and compares in constant time. -/
def argon2verify (digest : Digest) (password : String) : Bool := digest.input == password

/-- A persisted user row (entities/auth.entity and user.entity): id,
unique login identifier (username in part 015, email in part 009) and
the stored argon2 digest. -/
structure User where
  id : Nat
  username : String
  passwordHash : Digest
deriving Repr, DecidableEq

/-- The repository findOne with a where clause on the login identifier. -/
def findByUsername (db : List User) (username : String) : Option User :=
  db.find? (fun u => u.username == username)

/-- AuthService.register: hash the password with argon2 and save the new
user row. -/
def register (db : List User) (newId salt : Nat) (username password : String) : List User :=
  db ++ [⟨newId, username, argon2hash salt password⟩]

/-- AuthService.login: find the user by identifier; if found and
argon2.verify accepts the supplied password against the stored digest,
return the user, otherwise return null. -/
def login (db : List User) (username password : String) : Option User :=
  match findByUsername db username with
  | some u => if argon2verify u.passwordHash password then some u else none
  | none => none

/-- What the login endpoint sends back to the client. -/
inductive LoginResponse where
  | failure : Nat → String → LoginResponse
  | success : Nat → String → Jwt.TokenStr → LoginResponse
deriving Repr, DecidableEq

/-- AuthController create (the POST login route): a null result from
AuthService.login is answered with status 401 and the generic message,
otherwise a token is signed over the user identity and returned with
status 201. -/
def loginEndpoint (secret now : Nat) (db : List User) (username password : String) :
    LoginResponse :=
  match login db username password with
  | none => LoginResponse.failure 401 "Invalid credentials"
  | some u =>
    LoginResponse.success 201 "logged in"
      (Jwt.issue secret u.id [("username", u.username)] 3600000 now)

end Auth

namespace SessionStore

/-- A server-side session record. Modelled from the spec: the
secure-session plugin is an external library; the session carries the
subject, its creation time and its expiry, with expiresAt equal to
createdAt plus the fixed ttl (the configuration, maxAge of 15 minutes in
milliseconds, is in Workshop5 main.ts). -/
structure Session where
  subjectId : Nat
  createdAt : Nat
  expiresAt : Nat
deriving Repr, DecidableEq

/-- The configured session time-to-live: maxAge 15 * 60 * 1000 ms. -/
def fixedTTLms : Nat := 15 * 60 * 1000

/-- Modelled from the spec: create stores the subject under a fresh
opaque id with expiresAt = createdAt + ttl. -/
def create (subjectId now ttl : Nat) : Session := ⟨subjectId, now, now + ttl⟩

/-- Modelled from the spec: lookup returns None if the id is absent or
if now is past expiresAt (lazy expiry), otherwise the stored session. -/
def lookup (store : List (String × Session)) (sid : String) (now : Nat) : Option Session :=
  match store.find? (fun kv => kv.1 == sid) with
  | none => none
  | some kv => if kv.2.expiresAt < now then none else some kv.2

end SessionStore

namespace ErrorFilter

/-- An exception reaching the filter: either an HttpException carrying
its status, the message field of getResponse when that is an object with
one, and the exception message, or an unrecognized (non-HTTP) exception
carrying only internal detail. -/
inductive Exc where
  | httpException : Nat → Option String → String → Exc
  | unrecognized : String → Exc
deriving Repr, DecidableEq

/-- The uniform JSON error envelope sent by AllExceptionsFilter: exactly
the four fields of the object passed to response.send. -/
structure ErrorBody where
  statusCode : Nat
  timestamp : String
  path : String
  message : String
deriving Repr, DecidableEq

/-- The status chosen by AllExceptionsFilter: the status of a known
HttpException, otherwise 500 Internal Server Error. -/
def statusOfExc : Exc → Nat
  | Exc.httpException s _ _ => s
  | Exc.unrecognized _ => 500

/-- The message chosen by AllExceptionsFilter: for an HttpException, the
message field of getResponse when present and truthy, else the exception
message (the JavaScript or-fallback); otherwise the fixed generic
string. -/
def messageOfExc : Exc → String
  | Exc.httpException _ respMsg excMsg =>
    match respMsg with
    | some m => if m == "" then excMsg else m
    | none => excMsg
  | Exc.unrecognized _ => "Internal server error"

/-- AllExceptionsFilter.catch: the response status and the standardized
JSON body built from the exception, the current time and the request
path. -/
def catchAll (e : Exc) (nowIso path : String) : Nat × ErrorBody :=
  (statusOfExc e, ⟨statusOfExc e, nowIso, path, messageOfExc e⟩)

/-- What the client receives: either the handler result or the filter
response. -/
inductive HttpResponse where
  | okResponse : String → HttpResponse
  | errorResponse : Nat → ErrorBody → HttpResponse
deriving Repr, DecidableEq

/-- The pipeline stages in order (guard, pipe, interceptor, handler):
the first stage to raise aborts the rest. -/
def stageSeq (g p i h : Except Exc String) : Except Exc String := do
  let _ ← g
  let _ ← p
  let _ ← i
  h

/-- The request pipeline with the globally registered exception filter
as the error-standardization boundary: any exception escaping any stage
is caught and answered by catchAll. -/
def runPipeline (g p i h : Except Exc String) (nowIso path : String) : HttpResponse :=
  match stageSeq g p i h with
  | Except.ok body => HttpResponse.okResponse body
  | Except.error e => HttpResponse.errorResponse (catchAll e nowIso path).1 (catchAll e nowIso path).2

end ErrorFilter

namespace Registration

/-- The hashing failure of the credential verifier interface. -/
inductive HashError where
  | invalidInput : HashError
deriving Repr, DecidableEq

/-- Modelled from the spec: hash applies the salted one-way algorithm
and never fails except on empty or invalid input, which is rejected with
InvalidInput. -/
def hashPassword (salt : Nat) (password : String) : Except HashError Auth.Digest :=
  if password == "" then Except.error HashError.invalidInput
  else Except.ok (Auth.argon2hash salt password)

/-- An incoming password-change body (update-user.dto, UpdatePasswordDto):
the password field may be absent or any string. -/
structure UpdatePasswordDto where
  password : Option String
deriving Repr, DecidableEq

/-- Modelled from the spec: the IsNotEmpty check of class-validator (an
external library) on an optional string field — fails on an absent value
and on the empty string. -/
def isNotEmpty : Option String → Bool
  | none => false
  | some s => !(s == "")

/-- Modelled from the spec: the MaxLength 200 check of class-validator,
vacuously true on an absent value (IsNotEmpty reports that case). -/
def maxLen200 : Option String → Bool
  | none => true
  | some s => s.length ≤ 200

/-- An incoming registration body (create-user.dto, CreateUserDto). -/
structure CreateUserDto where
  username : Option String
  email : Option String
  password : Option String
  avatar : Option String
deriving Repr, DecidableEq

/-- The validator checks declared on CreateUserDto: username, email
nonempty and at most 200 characters; password and avatar nonempty. -/
def validateCreateUser (d : CreateUserDto) : Bool :=
  isNotEmpty d.username && maxLen200 d.username &&
  isNotEmpty d.email && maxLen200 d.email &&
  isNotEmpty d.password &&
  isNotEmpty d.avatar

/-- The validator check declared on UpdatePasswordDto: password present
and nonempty. -/
def validateUpdatePassword (d : UpdatePasswordDto) : Bool := isNotEmpty d.password

/-- A validated endpoint either is rejected by the ValidationPipe with
400 Bad Request before the handler runs, or produces the handler
result. -/
inductive EndpointResult (α : Type) where
  | badRequest : EndpointResult α
  | ok : α → EndpointResult α
deriving Repr, DecidableEq

/-- UsersService.updatePassword: hash the supplied password (the
JavaScript or-fallback to the empty string) and update the user row. -/
def updatePasswordService (db : List Auth.User) (id salt : Nat) (dto : UpdatePasswordDto) :
    List Auth.User :=
  let hashed := Auth.argon2hash salt (dto.password.getD "")
  db.map (fun u => if u.id == id then ⟨u.id, u.username, hashed⟩ else u)

/-- The registration route behind the global ValidationPipe: validate
the DTO, then AuthService.register hashes and stores. -/
def registerEndpoint (db : List Auth.User) (newId salt : Nat) (d : CreateUserDto) :
    EndpointResult (List Auth.User) :=
  if validateCreateUser d then
    EndpointResult.ok (Auth.register db newId salt (d.username.getD "") (d.password.getD ""))
  else EndpointResult.badRequest

/-- The password-change route behind the global ValidationPipe: validate
the DTO, then UsersService.updatePassword hashes and stores. -/
def updatePasswordEndpoint (db : List Auth.User) (id salt : Nat) (dto : UpdatePasswordDto) :
    EndpointResult (List Auth.User) :=
  if validateUpdatePassword dto then
    EndpointResult.ok (updatePasswordService db id salt dto)
  else EndpointResult.badRequest

end Registration

namespace RateLimiter

lemma increment_inWindow (w c now ttl : Nat) (h : now < w + ttl) :
    increment (some ⟨w, c⟩) now ttl = ⟨w, c + 1⟩ := by
  simp [increment, Nat.not_le.mpr h]

/-- Inside one window, processing a schedule from a live counter yields
the successive post-increment decisions and adds the schedule length to
the counter. -/
lemma processAll_inWindow (limit ttl w c : Nat) (ts : List Nat)
    (hwin : ∀ t ∈ ts, t < w + ttl) :
    processAll (some ⟨w, c⟩) limit ttl ts =
      (some ⟨w, c + ts.length⟩,
       (List.range ts.length).map (fun i => decide (c + (i + 1) ≤ limit))) := by
  induction ts generalizing c with
  | nil => simp [processAll]
  | cons t ts ih =>
    have ht : t < w + ttl := hwin t (List.mem_cons_self t ts)
    have hrest : ∀ u ∈ ts, u < w + ttl := fun u hu => hwin u (List.mem_cons_of_mem t hu)
    have hstep : increment (some ⟨w, c⟩) t ttl = ⟨w, c + 1⟩ := increment_inWindow w c t ttl ht
    simp only [processAll, allow, hstep, ih (c + 1) hrest, List.range_succ_eq_map,
      List.length_cons, List.map_cons, List.map_map]
    refine congrArg₂ Prod.mk ?_ ?_
    · have : c + 1 + ts.length = c + (ts.length + 1) := by omega
      rw [this]
    · refine congrArg₂ List.cons ?_ ?_
      · have : c + 1 = c + (0 + 1) := by omega
        rw [this]
      · apply List.map_congr_left
        intro i _
        simp only [Function.comp_apply]
        have : c + 1 + (i + 1) = c + (i + 1 + 1) := by omega
        rw [this]

/-- A whole burst from the empty store: the first request opens the
window, the rest stay inside it; the k-th request (0-indexed) sees
post-increment value k + 1. -/
lemma processAll_burst (limit ttl t0 : Nat) (rest : List Nat)
    (hwin : ∀ t ∈ rest, t < t0 + ttl) :
    processAll none limit ttl (t0 :: rest) =
      (some ⟨t0, rest.length + 1⟩,
       (List.range (rest.length + 1)).map (fun i => decide (i + 1 ≤ limit))) := by
  have h1 : allow none t0 limit ttl = (⟨t0, 1⟩, decide (1 ≤ limit)) := rfl
  simp only [processAll, h1, processAll_inWindow limit ttl t0 1 rest hwin,
    List.range_succ_eq_map, List.map_cons, List.map_map]
  refine congrArg₂ Prod.mk ?_ ?_
  · have : (1 : Nat) + rest.length = rest.length + 1 := by omega
    rw [this]
  refine congrArg₂ List.cons (by norm_num) ?_
  apply List.map_congr_left
  intro i _
  simp only [Function.comp_apply]
  have : 1 + (i + 1) = i + 1 + 1 := by omega
  rw [this]

/-- Among the successive post-increment decisions, exactly min M limit
are admissions. -/
lemma count_decisions (limit M : Nat) :
    (((List.range M).map (fun i => decide (i + 1 ≤ limit))).count true) = min M limit := by
  induction M with
  | zero => simp
  | succ m ih =>
    rw [List.range_succ, List.map_append, List.count_append, ih]
    by_cases h : m + 1 ≤ limit
    · simp [h]
      omega
    · simp [h]
      omega

lemma count_false_eq (l : List Bool) : l.count false = l.length - l.count true := by
  induction l with
  | nil => simp
  | cons b l ih =>
    have h1 : l.count true ≤ l.length := List.count_le_length true l
    cases b
    · simp [List.count_cons, ih]
      omega
    · simp [List.count_cons, ih]

/-- C1: with limit N and window ttl, any schedule of M > N atomic
increment-and-check operations for the same key inside one window admits
exactly N requests and rejects M - N, with no over- or under-admission.
The list of arrival times is the interleaving of the concurrent requests
at the shared store, and the theorem holds for every such list, so the
result is independent of how the requests interleave. -/
theorem rate_limiter_exactness (N ttl t0 M : Nat) (rest : List Nat)
    (hwin : ∀ t ∈ rest, t < t0 + ttl) (hM : M = rest.length + 1) (hMN : N < M) :
    ((processAll none N ttl (t0 :: rest)).2.count true = N) ∧
    ((processAll none N ttl (t0 :: rest)).2.count false = M - N) := by
  have hb := processAll_burst N ttl t0 rest hwin
  have hdec : (processAll none N ttl (t0 :: rest)).2 =
      (List.range (rest.length + 1)).map (fun i => decide (i + 1 ≤ N)) := by rw [hb]
  rw [hdec]
  constructor
  · rw [count_decisions]
    omega
  · simp only [count_false_eq, count_decisions, List.length_map, List.length_range]
    omega

/-- Witness for C1: 4 concurrent requests against limit 2 inside one
60-second window: exactly 2 admitted, 2 rejected. -/
theorem rate_limiter_exactness_witness :
    ((processAll none 2 60000 [0, 5, 10, 20]).2.count true = 2) ∧
    ((processAll none 2 60000 [0, 5, 10, 20]).2.count false = 4 - 2) :=
  rate_limiter_exactness 2 60000 0 4 [5, 10, 20] (by decide) (by decide) (by decide)

/-- C2: with the configured global throttler (limit 10, ttl 60000 ms), a
sequential same-key run inside one fixed window admits exactly the first
10 requests; every later request in the window is rejected with status
429; a rejected request still increments the per-key counter (final
counter equals the number of requests, admitted or not); and a request
arriving once the window ttl has elapsed finds the counter reset and is
admitted. -/
theorem fixed_window_sequential (t0 : Nat) (rest : List Nat)
    (hwin : ∀ t ∈ rest, t < t0 + 60000) :
    (∀ k, k < rest.length + 1 →
      (processAll none 10 60000 (t0 :: rest)).2[k]? = some (decide (k + 1 ≤ 10))) ∧
    (∀ k, k < rest.length + 1 → 10 ≤ k →
      ((processAll none 10 60000 (t0 :: rest)).2[k]?).map statusOf = some 429) ∧
    ((processAll none 10 60000 (t0 :: rest)).1 = some ⟨t0, rest.length + 1⟩) ∧
    (∀ t2, t0 + 60000 ≤ t2 →
      allow (processAll none 10 60000 (t0 :: rest)).1 t2 10 60000 = (⟨t2, 1⟩, true)) := by
  have hb := processAll_burst 10 60000 t0 rest hwin
  refine ⟨?_, ?_, ?_, ?_⟩
  · intro k hk
    rw [hb]
    simp [List.getElem?_map, List.getElem?_range, hk]
  · intro k hk hk10
    rw [hb]
    have hnot : ¬ (k + 1 ≤ 10) := by omega
    simp [List.getElem?_map, List.getElem?_range, hk, hnot, statusOf]
    omega
  · rw [hb]
  · intro t2 ht2
    rw [hb]
    simp [allow, increment, ht2]

/-- Witness for C2: 12 requests at one-millisecond intervals — the 10th
(index 9) is admitted, the 11th and 12th are rejected with 429, the
counter ends at 12, and a request at 61000 ms is admitted again. -/
theorem fixed_window_sequential_witness :
    ((processAll none 10 60000 [0, 1, 2, 3, 4, 5, 6, 7, 8, 9, 10, 11]).2[9]? = some true) ∧
    (((processAll none 10 60000 [0, 1, 2, 3, 4, 5, 6, 7, 8, 9, 10, 11]).2[10]?).map statusOf
      = some 429) ∧
    (((processAll none 10 60000 [0, 1, 2, 3, 4, 5, 6, 7, 8, 9, 10, 11]).2[11]?).map statusOf
      = some 429) ∧
    ((processAll none 10 60000 [0, 1, 2, 3, 4, 5, 6, 7, 8, 9, 10, 11]).1 = some ⟨0, 12⟩) ∧
    (allow (processAll none 10 60000 [0, 1, 2, 3, 4, 5, 6, 7, 8, 9, 10, 11]).1 61000 10 60000
      = (⟨61000, 1⟩, true)) := by
  have h := fixed_window_sequential 0 [1, 2, 3, 4, 5, 6, 7, 8, 9, 10, 11] (by decide)
  refine ⟨?_, ?_, ?_, ?_, ?_⟩
  · have h9 := h.1 9 (by decide)
    simpa using h9
  · exact h.2.1 10 (by decide) (by decide)
  · exact h.2.1 11 (by decide) (by decide)
  · exact h.2.2.1
  · exact h.2.2.2 61000 (by decide)

end RateLimiter

namespace Guards

/-- C3: for every request and every route configuration (session mode or
token mode), the two guard decisions are exact complements: the
authenticated-required guard admits exactly when an identity is resolved
(a truthy session userId, or a cookie token that verifies), and the
guest-required guard admits exactly when none is. -/
theorem guard_symmetry (secret now : Nat) (mode : RouteMode) (r : Request) :
    authRequiredAdmits secret now mode r = identityResolved secret now mode r ∧
    guestRequiredAdmits secret now mode r = !(identityResolved secret now mode r) := by
  cases mode with
  | session =>
    constructor
    · cases h : truthy r.sessionUserId with
      | true => simp [authRequiredAdmits, identityResolved, authorizedCanActivate, h]
      | false => simp [authRequiredAdmits, identityResolved, authorizedCanActivate, h]
    · cases h : truthy r.sessionUserId with
      | true => simp [guestRequiredAdmits, identityResolved, guestCanActivate, h]
      | false => simp [guestRequiredAdmits, identityResolved, guestCanActivate, h]
  | token =>
    cases hct : r.cookieToken with
    | none =>
      constructor
      · simp [authRequiredAdmits, identityResolved, jwtAuthGuardAdmits, hct]
      · simp [guestRequiredAdmits, identityResolved, guestGuardCanActivate, hct]
    | some t =>
      cases hv : Jwt.verify secret now t with
      | ok pl =>
        constructor
        · simp [authRequiredAdmits, identityResolved, jwtAuthGuardAdmits, Jwt.verifyOk, hct, hv]
        · simp [guestRequiredAdmits, identityResolved, guestGuardCanActivate, Jwt.verifyOk,
            hct, hv]
      | error e =>
        constructor
        · simp [authRequiredAdmits, identityResolved, jwtAuthGuardAdmits, Jwt.verifyOk, hct, hv]
        · simp [guestRequiredAdmits, identityResolved, guestGuardCanActivate, Jwt.verifyOk,
            hct, hv]

end Guards

namespace Jwt

/-- C4: verifying a token issued with the server secret fails with
Expired exactly when the check time is past issuedAt + ttl, and when it
has not expired the verification succeeds and returns the embedded
subject id and claims (expiration checking is enabled; the configured
ttl is an arbitrary parameter, 60 minutes in the workshop module). -/
theorem token_expiry (secret sub iat ttl now : Nat) (claims : List (String × String)) :
    (verify secret now (issue secret sub claims ttl iat) =
        Except.error TokenError.expired ↔ iat + ttl < now) ∧
    (now ≤ iat + ttl →
      verify secret now (issue secret sub claims ttl iat) =
        Except.ok ⟨sub, claims, iat, ttl⟩) := by
  constructor
  · by_cases h : iat + ttl < now
    · simp [verify, issue, h]
    · simp [verify, issue, h]
  · intro h
    simp [verify, issue, Nat.not_lt.mpr h]

/-- Witness for C4: a token issued at time 0 with ttl 1000 ms (one
second) fails verification with Expired at 2000 ms and succeeds at
500 ms, returning subject 1 and its claims. -/
theorem token_expiry_witness :
    (verify 7 2000 (issue 7 1 [("role", "admin")] 1000 0) =
      Except.error TokenError.expired) ∧
    (verify 7 500 (issue 7 1 [("role", "admin")] 1000 0) =
      Except.ok ⟨1, [("role", "admin")], 0, 1000⟩) := by
  have h := token_expiry 7 1 0 1000 2000 [("role", "admin")]
  have h2 := token_expiry 7 1 0 1000 500 [("role", "admin")]
  exact ⟨h.1.mpr (by decide), h2.2 (by decide)⟩

end Jwt

namespace Guards

/-- C10: the token-mode GuestGuard treats a token that fails
verification (expired, malformed, or signed with the wrong secret) as no
identity: it clears the token cookie and admits the request; only a
token that verifies successfully makes the guard reject, redirecting to
/todo and returning false; and a guard rejection implies the request
carried a successfully verifying token. -/
theorem guest_guard_token_verification (secret now : Nat) (t : Jwt.TokenStr) :
    ((∃ e, Jwt.verify secret now t = Except.error e) →
      guestGuardCanActivate secret now (some t) = ⟨true, none, true⟩) ∧
    ((∃ pl, Jwt.verify secret now t = Except.ok pl) →
      guestGuardCanActivate secret now (some t) = ⟨false, some "/todo", false⟩) ∧
    (∀ ct, (guestGuardCanActivate secret now ct).allow = false →
      ∃ t0 pl, ct = some t0 ∧ Jwt.verify secret now t0 = Except.ok pl) := by
  refine ⟨?_, ?_, ?_⟩
  · rintro ⟨e, he⟩
    simp [guestGuardCanActivate, he]
  · rintro ⟨pl, hpl⟩
    simp [guestGuardCanActivate, hpl]
  · intro ct hallow
    cases ct with
    | none => simp [guestGuardCanActivate] at hallow
    | some t0 =>
      cases hv : Jwt.verify secret now t0 with
      | ok pl => exact ⟨t0, pl, rfl, hv⟩
      | error e => simp [guestGuardCanActivate, hv] at hallow

/-- Witness for C10: a malformed token, an expired token and a token
signed with the wrong secret are each admitted with the cookie cleared,
while a valid token is rejected with a redirect to /todo. -/
theorem guest_guard_token_verification_witness :
    (guestGuardCanActivate 7 0 (some (Jwt.TokenStr.garbage "not-a-jwt")) =
      ⟨true, none, true⟩) ∧
    (guestGuardCanActivate 7 2000 (some (Jwt.issue 7 1 [] 1000 0)) = ⟨true, none, true⟩) ∧
    (guestGuardCanActivate 7 500 (some (Jwt.issue 8 1 [] 1000 0)) = ⟨true, none, true⟩) ∧
    (guestGuardCanActivate 7 500 (some (Jwt.issue 7 1 [] 1000 0)) =
      ⟨false, some "/todo", false⟩) := by
  refine ⟨?_, ?_, ?_, ?_⟩
  · exact (guest_guard_token_verification 7 0 (Jwt.TokenStr.garbage "not-a-jwt")).1
      ⟨Jwt.TokenError.malformed, rfl⟩
  · exact (guest_guard_token_verification 7 2000 (Jwt.issue 7 1 [] 1000 0)).1
      ⟨Jwt.TokenError.expired, rfl⟩
  · exact (guest_guard_token_verification 7 500 (Jwt.issue 8 1 [] 1000 0)).1
      ⟨Jwt.TokenError.invalidSignature, rfl⟩
  · exact (guest_guard_token_verification 7 500 (Jwt.issue 7 1 [] 1000 0)).2.1
      ⟨⟨1, [], 0, 1000⟩, rfl⟩

end Guards

namespace Auth

lemma find_append_of_none {α : Type} (l1 l2 : List α) (f : α → Bool)
    (h : l1.find? f = none) : (l1 ++ l2).find? f = l2.find? f := by
  induction l1 with
  | nil => simp
  | cons a l1 ih =>
    cases hf : f a with
    | true =>
      rw [List.find?_cons_of_pos _ hf] at h
      exact absurd h (by simp)
    | false =>
      rw [List.find?_cons_of_neg _ (by simp [hf])] at h
      rw [List.cons_append, List.find?_cons_of_neg _ (by simp [hf])]
      exact ih h

lemma findByUsername_register (db : List User) (newId salt : Nat) (u p : String)
    (hfresh : findByUsername db u = none) :
    findByUsername (register db newId salt u p) u = some ⟨newId, u, argon2hash salt p⟩ := by
  unfold findByUsername register
  rw [find_append_of_none db _ _ hfresh]
  rw [List.find?_cons_of_pos _ (by simp)]

/-- C5: password verification accepts exactly the hashed password: for
every password the digest of that password verifies, any distinct
password fails against it, a user registered with password p can log in
with p, and a login attempt for that user with any other password
returns no user. -/
theorem credential_round_trip (db : List User) (newId salt : Nat) (u p : String)
    (hfresh : findByUsername db u = none) :
    (∀ s q, argon2verify (argon2hash s q) q = true) ∧
    (∀ s q1 q2, q1 ≠ q2 → argon2verify (argon2hash s q2) q1 = false) ∧
    (login (register db newId salt u p) u p = some ⟨newId, u, argon2hash salt p⟩) ∧
    (∀ q, q ≠ p → login (register db newId salt u p) u q = none) := by
  refine ⟨?_, ?_, ?_, ?_⟩
  · intro s q
    simp [argon2verify, argon2hash]
  · intro s q1 q2 hne
    simp [argon2verify, argon2hash]
    exact fun h => (hne h.symm).elim
  · rw [login, findByUsername_register db newId salt u p hfresh]
    simp [argon2verify, argon2hash]
  · intro q hne
    rw [login, findByUsername_register db newId salt u p hfresh]
    have : argon2verify (argon2hash salt p) q = false := by
      simp [argon2verify, argon2hash]
      exact fun h => (hne h.symm).elim
    simp [this]

/-- Witness for C5: registering alice with password hunter2 into an
empty table lets alice log in with hunter2 and rejects hunter3. -/
theorem credential_round_trip_witness :
    (argon2verify (argon2hash 3 "hunter2") "hunter2" = true) ∧
    (argon2verify (argon2hash 3 "hunter3") "hunter2" = false) ∧
    (login (register [] 1 3 "alice" "hunter2") "alice" "hunter2" =
      some ⟨1, "alice", argon2hash 3 "hunter2"⟩) ∧
    (login (register [] 1 3 "alice" "hunter2") "alice" "hunter3" = none) := by
  have h := credential_round_trip [] 1 3 "alice" "hunter2" rfl
  exact ⟨h.1 3 "hunter2", h.2.1 3 "hunter2" "hunter3" (by decide), h.2.2.1,
    h.2.2.2 "hunter3" (by decide)⟩

/-- C6: a failed login is observationally identical whether the
identifier was unknown or the password did not match: in both cases
AuthService.login returns null and the controller answers with the same
401 response carrying the generic message. -/
theorem login_failure_indistinguishable (secret now : Nat)
    (db1 : List User) (u1 p1 : String) (db2 : List User) (u2 p2 : String)
    (h1 : findByUsername db1 u1 = none)
    (h2 : ∃ usr, findByUsername db2 u2 = some usr ∧
      argon2verify usr.passwordHash p2 = false) :
    (login db1 u1 p1 = none) ∧ (login db2 u2 p2 = none) ∧
    (loginEndpoint secret now db1 u1 p1 = loginEndpoint secret now db2 u2 p2) ∧
    (loginEndpoint secret now db1 u1 p1 =
      LoginResponse.failure 401 "Invalid credentials") := by
  obtain ⟨usr, hfind, hverify⟩ := h2
  have e1 : login db1 u1 p1 = none := by simp [login, h1]
  have e2 : login db2 u2 p2 = none := by simp [login, hfind, hverify]
  refine ⟨e1, e2, ?_, ?_⟩
  · simp [loginEndpoint, e1, e2]
  · simp [loginEndpoint, e1]

/-- Witness for C6: an unknown identifier against an empty table and a
wrong password for a registered bob produce the same generic 401
response. -/
theorem login_failure_indistinguishable_witness :
    (login [] "alice" "x" = none) ∧
    (login [⟨1, "bob", argon2hash 3 "right"⟩] "bob" "wrong" = none) ∧
    (loginEndpoint 7 0 [] "alice" "x" =
      loginEndpoint 7 0 [⟨1, "bob", argon2hash 3 "right"⟩] "bob" "wrong") ∧
    (loginEndpoint 7 0 [] "alice" "x" = LoginResponse.failure 401 "Invalid credentials") := by
  exact login_failure_indistinguishable 7 0 [] "alice" "x"
    [⟨1, "bob", argon2hash 3 "right"⟩] "bob" "wrong" rfl
    ⟨⟨1, "bob", argon2hash 3 "right"⟩, rfl, rfl⟩

end Auth

namespace SessionStore

/-- C7: a session created with ttl T resolves to its subject on lookup
at every time strictly before T has elapsed since creation and to None
at every time strictly after; the stored expiry is creation time plus
the fixed ttl; and in general lookup returns None exactly when the id is
absent or the current time is past the stored expiry. -/
theorem session_expiry (store : List (String × Session)) (sid : String)
    (subjectId t ttl : Nat)
    (hmem : store.find? (fun kv => kv.1 == sid) = some (sid, create subjectId t ttl)) :
    (∀ now, now < t + ttl → lookup store sid now = some (create subjectId t ttl)) ∧
    (∀ now, t + ttl < now → lookup store sid now = none) ∧
    ((create subjectId t ttl).expiresAt = (create subjectId t ttl).createdAt + ttl) ∧
    (∀ (store2 : List (String × Session)) (sid2 : String) (now2 : Nat),
      lookup store2 sid2 now2 = none ↔
        store2.find? (fun kv => kv.1 == sid2) = none ∨
        ∃ kv, store2.find? (fun kv2 => kv2.1 == sid2) = some kv ∧ kv.2.expiresAt < now2) := by
  refine ⟨?_, ?_, rfl, ?_⟩
  · intro now hnow
    have hlt : ¬ ((create subjectId t ttl).expiresAt < now) := by
      simp [create]
      omega
    simp [lookup, hmem, hlt]
  · intro now hnow
    have hlt : (create subjectId t ttl).expiresAt < now := by
      simp [create]
      omega
    simp [lookup, hmem, hlt]
  · intro store2 sid2 now2
    cases hfind : store2.find? (fun kv => kv.1 == sid2) with
    | none => simp [lookup, hfind]
    | some kv =>
      by_cases hexp : kv.2.expiresAt < now2
      · simp [lookup, hfind, hexp]
      · simp [lookup, hfind, hexp]

/-- Witness for C7: a session for subject 42 created at time 0 with the
configured 15-minute ttl is found at 100 ms and gone at 900001 ms. -/
theorem session_expiry_witness :
    (lookup [("s1", create 42 0 fixedTTLms)] "s1" 100 = some (create 42 0 fixedTTLms)) ∧
    (lookup [("s1", create 42 0 fixedTTLms)] "s1" 900001 = none) := by
  have h := session_expiry [("s1", create 42 0 fixedTTLms)] "s1" 42 0 fixedTTLms rfl
  exact ⟨h.1 100 (by decide), h.2.1 900001 (by decide)⟩

end SessionStore

namespace ErrorFilter

/-- C8: every exception escaping any pipeline stage is caught at the
globally registered filter and answered with the uniform body holding
exactly statusCode, timestamp, path and message; an unrecognized
exception maps to status 500 with the generic message, and the response
to an unrecognized exception is independent of its internal detail, so
nothing internal reaches the client. -/
theorem exceptions_standardized (g p i h : Except Exc String) (nowIso path : String) :
    (∀ e, stageSeq g p i h = Except.error e →
      runPipeline g p i h nowIso path =
        HttpResponse.errorResponse (statusOfExc e)
          ⟨statusOfExc e, nowIso, path, messageOfExc e⟩) ∧
    (∀ detail, statusOfExc (Exc.unrecognized detail) = 500 ∧
      messageOfExc (Exc.unrecognized detail) = "Internal server error") ∧
    (∀ d1 d2, catchAll (Exc.unrecognized d1) nowIso path =
      catchAll (Exc.unrecognized d2) nowIso path) := by
  refine ⟨?_, ?_, ?_⟩
  · intro e he
    simp [runPipeline, he, catchAll]
  · intro detail
    exact ⟨rfl, rfl⟩
  · intro d1 d2
    rfl

/-- Witness for C8: an unrecognized exception thrown by the handler is
answered with status 500, the generic message and the request path, with
no internal detail in the body. -/
theorem exceptions_standardized_witness :
    runPipeline (Except.ok "") (Except.ok "") (Except.ok "")
        (Except.error (Exc.unrecognized "db connection string leaked"))
        "2026-01-01T00:00:00.000Z" "/api/user" =
      HttpResponse.errorResponse 500
        ⟨500, "2026-01-01T00:00:00.000Z", "/api/user", "Internal server error"⟩ := by
  have h := exceptions_standardized (Except.ok "") (Except.ok "") (Except.ok "")
    (Except.error (Exc.unrecognized "db connection string leaked"))
    "2026-01-01T00:00:00.000Z" "/api/user"
  exact h.1 (Exc.unrecognized "db connection string leaked") rfl

end ErrorFilter

namespace Registration

/-- C9: the credential hashing operation fails with InvalidInput exactly
on the empty password and succeeds on every other password; and both the
registration route and the password-change route reject a missing or
empty password at validation with 400 Bad Request, before anything is
hashed or stored. -/
theorem empty_password_rejected (salt : Nat) :
    (∀ p, hashPassword salt p = Except.error HashError.invalidInput ↔ p = "") ∧
    (∀ p, p ≠ "" → hashPassword salt p = Except.ok (Auth.argon2hash salt p)) ∧
    (∀ (db : List Auth.User) (newId : Nat) (d : CreateUserDto),
      d.password = some "" ∨ d.password = none →
        registerEndpoint db newId salt d = EndpointResult.badRequest) ∧
    (∀ (db : List Auth.User) (id : Nat) (dto : UpdatePasswordDto),
      dto.password = some "" ∨ dto.password = none →
        updatePasswordEndpoint db id salt dto = EndpointResult.badRequest) := by
  refine ⟨?_, ?_, ?_, ?_⟩
  · intro p
    by_cases hp : p = ""
    · simp [hashPassword, hp]
    · simp [hashPassword, hp]
  · intro p hp
    simp [hashPassword, hp]
  · intro db newId d hd
    have hval : validateCreateUser d = false := by
      cases hd with
      | inl h => simp [validateCreateUser, isNotEmpty, h]
      | inr h => simp [validateCreateUser, isNotEmpty, h]
    simp [registerEndpoint, hval]
  · intro db id dto hd
    have hval : validateUpdatePassword dto = false := by
      cases hd with
      | inl h => simp [validateUpdatePassword, isNotEmpty, h]
      | inr h => simp [validateUpdatePassword, isNotEmpty, h]
    simp [updatePasswordEndpoint, hval]

/-- Witness for C9: hashing the empty password fails with InvalidInput,
hashing a normal password succeeds, and registration and password change
with an empty password are both rejected with 400 before storage. -/
theorem empty_password_rejected_witness :
    (hashPassword 3 "" = Except.error HashError.invalidInput) ∧
    (hashPassword 3 "hunter2" = Except.ok (Auth.argon2hash 3 "hunter2")) ∧
    (registerEndpoint [] 1 3 ⟨some "bob", some "bob at mail", some "", some "a.png"⟩ =
      EndpointResult.badRequest) ∧
    (updatePasswordEndpoint [⟨1, "bob", Auth.argon2hash 3 "old"⟩] 1 3 ⟨some ""⟩ =
      EndpointResult.badRequest) := by
  have h := empty_password_rejected 3
  exact ⟨h.1 "" |>.mpr rfl, h.2.1 "hunter2" (by decide),
    h.2.2.1 [] 1 ⟨some "bob", some "bob at mail", some "", some "a.png"⟩ (Or.inl rfl),
    h.2.2.2 [⟨1, "bob", Auth.argon2hash 3 "old"⟩] 1 ⟨some ""⟩ (Or.inl rfl)⟩

end Registration
